import Mathlib

/-!
Verification of the session/token-scoped authentication subsystem and the
per-IP rate limiter of the `personal_website` Go backend.

The session store (`valkey_adapter.sessionAdapter`) is embedded as explicit
state passing over an association-list model of the key-value backend:
string keys with expiry timestamps for the primary session records, and
string-set keys for the per-user token indexes.  Time is an explicit `Nat`
parameter (`now`); a record written with TTL `d` at time `now` is readable
exactly at times `t < now + d`, matching SET-with-EX semantics.

Handler-level flows (`Handler.AuthenticationToken`, `Handler.RefreshToken`,
`Handler.authenticate`) are embedded as functions over that state, keeping
only the session-mutating phase: credential verification, JSON encoding and
permission lookup are external collaborators whose results appear as
parameters.
-/

namespace Blog

/-- Association-list lookup by string key (first binding wins). -/
def alookup {α : Type} : List (String × α) → String → Option α
  | [], _ => none
  | (k, v) :: rest, key => if key = k then some v else alookup rest key

/-- Remove every binding of `key`. -/
def adel {α : Type} : List (String × α) → String → List (String × α)
  | [], _ => []
  | (k, v) :: rest, key =>
    if k = key then adel rest key else (k, v) :: adel rest key

/-- Set `key` to `v`, replacing any previous binding. -/
def aset {α : Type} (l : List (String × α)) (key : String) (v : α) :
    List (String × α) :=
  (key, v) :: adel l key

/-- The authorization payload (`domain.Session`): user id, email,
permission set, activated flag.  `domain.Permissions` is not under the
extracted sources; per the spec it is an unordered collection of permission
codes with exact-string membership, embedded here as `List String`. -/
structure Session where
  userID : Int
  email : String
  permissions : List String
  activated : Bool
deriving DecidableEq, Repr

/-- The serialized record (`valkey_adapter.sessionData`): the session fields
plus the computed absolute expiration timestamp.  JSON round-tripping is the
identity on these fields. -/
structure SessionData where
  userID : Int
  email : String
  permissions : List String
  activated : Bool
  expiresAt : Nat
deriving DecidableEq, Repr

/-- One primary record in the key-value backend: the payload and the
absolute time at which the key expires (SET ... EX ttl). -/
structure StrEntry where
  data : SessionData
  expiresAt : Nat
deriving DecidableEq, Repr

/-- The key-value backend state: string keys with TTL for primary session
records, plus set keys (no TTL) for the per-user token indexes. -/
structure ValkeyState where
  strs : List (String × StrEntry)
  sets : List (String × List String)
deriving DecidableEq, Repr

def emptyState : ValkeyState := ⟨[], []⟩

/-- GET of a primary record at time `now`: the value while the key is
unexpired, absent otherwise (an expired key and a never-set key are
indistinguishable to the client, both answer nil). -/
def getStr (st : ValkeyState) (now : Nat) (k : String) : Option SessionData :=
  match alookup st.strs k with
  | some e => if now < e.expiresAt then some e.data else none
  | none => none

/-- SET key value EX ttl issued at time `now`. -/
def setStr (st : ValkeyState) (now : Nat) (k : String) (v : SessionData)
    (ttl : Nat) : ValkeyState :=
  { st with strs := aset st.strs k ⟨v, now + ttl⟩ }

/-- DEL of a primary record. -/
def delStr (st : ValkeyState) (k : String) : ValkeyState :=
  { st with strs := adel st.strs k }

/-- SMEMBERS: the member list of a set key, empty when the key is absent. -/
def smembers (st : ValkeyState) (k : String) : List String :=
  (alookup st.sets k).getD []

/-- SADD of a single member. -/
def sadd (st : ValkeyState) (k m : String) : ValkeyState :=
  let cur := smembers st k
  { st with sets := aset st.sets k (if m ∈ cur then cur else cur ++ [m]) }

/-- SREM of a single member. -/
def srem (st : ValkeyState) (k m : String) : ValkeyState :=
  { st with sets := aset st.sets k ((smembers st k).filter (· ≠ m)) }

/-- DEL of a set key. -/
def delSet (st : ValkeyState) (k : String) : ValkeyState :=
  { st with sets := adel st.sets k }

/-- Embedding of `domain.TokenScope`, a Go `int`; the three declared constants are
0, 1, 2 in declaration order. -/
abbrev TokenScope := Int

def ScopeActivation : TokenScope := 0

def ScopeAuthentication : TokenScope := 1

def ScopeRefresh : TokenScope := 2

/-- Embedding of `TokenScope.String`: the scope-to-string mapping, an error on any
undeclared numeric value. -/
def scopeString : TokenScope → Except String String
  | 0 => .ok "activation"
  | 1 => .ok "authentication"
  | 2 => .ok "refresh"
  | _ => .error "Incorrect token scope"

/-- The domain errors reachable from the session adapter. -/
inductive DomainErr where
  | internalError
  | sessionNotFound
deriving DecidableEq, Repr

/-- Embedding of `sessionAdapter.buildKey`: primary key `{scope}:token:{plaintext}`,
propagating the scope-conversion error. -/
def buildKey (token : String) (scope : TokenScope) : Except String String :=
  match scopeString scope with
  | .ok s => .ok (s ++ ":token:" ++ token)
  | .error e => .error e

/-- Embedding of `sessionAdapter.buildUserIndexKey`: index key
`user:{userID}:{scope}:sessions`; the scope-conversion error is discarded
(`scopeStr, _ := scope.String()`), leaving an empty scope segment. -/
def buildUserIndexKey (userID : Int) (scope : TokenScope) : String :=
  let scopeStr := match scopeString scope with
    | .ok s => s
    | .error _ => ""
  "user:" ++ toString userID ++ ":" ++ scopeStr ++ ":sessions"

/-- The TTL (in seconds) selected by `StoreSession`'s scope switch. -/
def scopeTTL (scope : TokenScope) : Nat :=
  if scope = ScopeAuthentication then 600
  else if scope = ScopeRefresh then 4 * 24 * 3600
  else 24 * 3600

/-- Embedding of `sessionAdapter.StoreSession`: build the primary key (internal error on
an invalid scope), SET the serialized record with the scope's TTL, then
SADD the token to the per-user index (which carries no TTL). -/
def storeSession (st : ValkeyState) (now : Nat) (token : String)
    (scope : TokenScope) (session : Session) : Except DomainErr ValkeyState :=
  match buildKey token scope with
  | .error _ => .error .internalError
  | .ok key =>
    let ttl := scopeTTL scope
    let data : SessionData :=
      ⟨session.userID, session.email, session.permissions, session.activated,
        now + ttl⟩
    let st1 := setStr st now key data ttl
    let st2 := sadd st1 (buildUserIndexKey session.userID scope) token
    .ok st2

/-- Embedding of `sessionAdapter.GetSession`: build the primary key (internal error on an
invalid scope), GET it, answer `sessionNotFound` when the key is absent or
expired, otherwise the deserialized session (the stored `expiresAt` field is
dropped). -/
def getSession (st : ValkeyState) (now : Nat) (token : String)
    (scope : TokenScope) : Except DomainErr Session :=
  match buildKey token scope with
  | .error _ => .error .internalError
  | .ok key =>
    match getStr st now key with
    | none => .error .sessionNotFound
    | some d => .ok ⟨d.userID, d.email, d.permissions, d.activated⟩

/-- DEL of every primary key built from the listed tokens, skipping tokens
whose key fails to build. -/
def delTokenKeys (st : ValkeyState) (scope : TokenScope) :
    List String → ValkeyState
  | [] => st
  | t :: rest =>
    match buildKey t scope with
    | .error _ => delTokenKeys st scope rest
    | .ok key => delTokenKeys (delStr st key) scope rest

/-- Embedding of `sessionAdapter.DeleteAllSessionsForUser`: SMEMBERS the per-user index
(empty meaning nothing to do, a success), DEL every referenced primary key,
then DEL the index key itself.  The index key is built with the discarded
scope-conversion error, so an invalid scope silently reads the
empty-scope-segment key. -/
def deleteAllSessionsForUser (st : ValkeyState) (userID : Int)
    (scope : TokenScope) : Except DomainErr ValkeyState :=
  let userIndexKey := buildUserIndexKey userID scope
  let tokens := smembers st userIndexKey
  if tokens = [] then .ok st
  else
    let st1 := delTokenKeys st scope tokens
    .ok (delSet st1 userIndexKey)

/-- Embedding of `sessionAdapter.DeleteSession`: resolve the token under the
authentication scope (a `sessionNotFound` from the lookup is swallowed, any
other error propagates), DEL the primary key unconditionally, and SREM the
token from the resolved user's authentication index when a session was
found.  It returns success whether or not a session existed. -/
def deleteSession (st : ValkeyState) (now : Nat) (token : String) :
    Except DomainErr ValkeyState :=
  match buildKey token ScopeAuthentication with
  | .error _ => .error .internalError
  | .ok key =>
    match getSession st now token ScopeAuthentication with
    | .error .internalError => .error .internalError
    | .error .sessionNotFound => .ok (delStr st key)
    | .ok session =>
      let st1 := delStr st key
      .ok (srem st1 (buildUserIndexKey session.userID ScopeAuthentication)
        token)

/-- The three declared scope constants. -/
def validScope (s : TokenScope) : Prop :=
  s = ScopeActivation ∨ s = ScopeAuthentication ∨ s = ScopeRefresh

/-- The primary key a valid scope produces (`buildKey` without the error
channel). -/
def sessionKey (scope : TokenScope) (token : String) : String :=
  (match scopeString scope with
    | .ok s => s
    | .error _ => "") ++ ":token:" ++ token

/-- The serialized record `StoreSession` writes for a session expiring at
`e`. -/
def mkData (sess : Session) (e : Nat) : SessionData :=
  ⟨sess.userID, sess.email, sess.permissions, sess.activated, e⟩

/-- A valid-scope `StoreSession` always succeeds; this is the state it
returns. -/
def storeRun (st : ValkeyState) (now : Nat) (token : String)
    (scope : TokenScope) (sess : Session) : ValkeyState :=
  sadd
    (setStr st now (sessionKey scope token)
      (mkData sess (now + scopeTTL scope)) (scopeTTL scope))
    (buildUserIndexKey sess.userID scope) token

/-- The operation `DeleteAllSessionsForUser` always succeeds; this is the state it
returns. -/
def deleteAllRun (st : ValkeyState) (userID : Int) (scope : TokenScope) :
    ValkeyState :=
  let userIndexKey := buildUserIndexKey userID scope
  let tokens := smembers st userIndexKey
  if tokens = [] then st else delSet (delTokenKeys st scope tokens) userIndexKey

/-- An operation performed against the session adapter, tagged with the
wall-clock instant at which it runs. -/
inductive SessionOp where
  | store (now : Nat) (token : String) (scope : TokenScope) (sess : Session)
  | delAll (userID : Int) (scope : TokenScope)
  | delOne (now : Nat) (token : String)

/-- Run one adapter operation, keeping the prior state when the adapter
reports an error (an erroring call performs no writes). -/
def applyOp (st : ValkeyState) : SessionOp → ValkeyState
  | .store now token scope sess =>
    match storeSession st now token scope sess with
    | .ok st' => st'
    | .error _ => st
  | .delAll userID scope =>
    match deleteAllSessionsForUser st userID scope with
    | .ok st' => st'
    | .error _ => st
  | .delOne now token =>
    match deleteSession st now token with
    | .ok st' => st'
    | .error _ => st

def applyOps (st : ValkeyState) (ops : List SessionOp) : ValkeyState :=
  ops.foldl applyOp st

/-- The operation stores a session under exactly this token and scope. -/
def storesToken (op : SessionOp) (token : String) (scope : TokenScope) :
    Prop :=
  ∃ now sess, op = SessionOp.store now token scope sess

/-- The session-mutating phase of `Handler.AuthenticationToken` after
credentials were verified and permissions fetched: delete all
authentication-scope sessions of the user, delete all refresh-scope
sessions, store the new access session, store the new refresh session —
in exactly this order, each step aborting the flow on error. -/
def loginSessions (st : ValkeyState) (now : Nat) (sess : Session)
    (accessToken refreshToken : String) : Except DomainErr ValkeyState :=
  match deleteAllSessionsForUser st sess.userID ScopeAuthentication with
  | .error e => .error e
  | .ok st1 =>
    match deleteAllSessionsForUser st1 sess.userID ScopeRefresh with
    | .error e => .error e
    | .ok st2 =>
      match storeSession st2 now accessToken ScopeAuthentication sess with
      | .error e => .error e
      | .ok st3 => storeSession st3 now refreshToken ScopeRefresh sess

/-- The state a successful login leaves behind. -/
def loginRun (st : ValkeyState) (now : Nat) (sess : Session)
    (accessToken refreshToken : String) : ValkeyState :=
  storeRun
    (storeRun
      (deleteAllRun (deleteAllRun st sess.userID ScopeAuthentication)
        sess.userID ScopeRefresh)
      now accessToken ScopeAuthentication sess)
    now refreshToken ScopeRefresh sess

/-- The session-mutating phase of `Handler.RefreshToken` once a refresh
cookie value is at hand: resolve the refresh session, delete all
authentication-scope sessions of its user, store the freshly generated
access session. -/
def refreshSessions (st : ValkeyState) (now : Nat)
    (refreshToken accessToken : String) :
    Except DomainErr (ValkeyState × Session) :=
  match getSession st now refreshToken ScopeRefresh with
  | .error e => .error e
  | .ok sess =>
    match deleteAllSessionsForUser st sess.userID ScopeAuthentication with
    | .error e => .error e
    | .ok st1 =>
      match storeSession st1 now accessToken ScopeAuthentication sess with
      | .error e => .error e
      | .ok st2 => .ok (st2, sess)

/-- A request-scoped `*domain.Session` as the middleware can attach it:
either the package-level shared `AnonymousSession` pointer, or a Session
freshly allocated by the gate.  Go's `Session.IsAnonymous` compares
pointers, and a fresh allocation is never pointer-equal to the shared
singleton, so the pointer graph reachable in the middleware is exactly
these two shapes. -/
inductive SessionRef where
  | anonymous
  | fresh (s : Session)
deriving DecidableEq, Repr

/-- The structural content of `domain.AnonymousSession`. -/
def anonymousSessionValue : Session := ⟨0, "", [], false⟩

/-- Embedding of `Session.IsAnonymous`: pointer identity with the shared singleton. -/
def isAnonymous : SessionRef → Bool
  | .anonymous => true
  | .fresh _ => false

/-- The outcome of `Handler.authenticate` for one request. -/
inductive AuthOutcome where
  | invalidTokenError
  | serverError
  | proceed (s : SessionRef)
deriving DecidableEq, Repr

/-- Embedding of `DomainValidator.ValidateTokenPlaintext`: non-empty and exactly 26
bytes. -/
def validateTokenPlaintext (token : String) : Bool :=
  decide (token ≠ "") && (token.utf8ByteSize == 26)

/-- The tail of `Handler.authenticate` once a token string is in hand:
shape validation, then resolution against the authentication scope;
not-found (and expired) records are an invalid-token rejection, any other
store failure a server error, success attaches a freshly copied session. -/
def authenticateToken (st : ValkeyState) (now : Nat) (token : String) :
    AuthOutcome :=
  if validateTokenPlaintext token = false then .invalidTokenError
  else
    match getSession st now token ScopeAuthentication with
    | .error .sessionNotFound => .invalidTokenError
    | .error .internalError => .serverError
    | .ok s => .proceed (.fresh ⟨s.userID, s.email, s.permissions, s.activated⟩)

/-- Split a char list at every occurrence of the separator, keeping empty
segments — the semantics of Go's `strings.Split` for a one-character
separator. -/
def splitOnChar (sep : Char) : List Char → List (List Char)
  | [] => [[]]
  | c :: rest =>
    match splitOnChar sep rest with
    | [] => if c = sep then [[], [c]] else [[c]]
    | h :: t => if c = sep then [] :: h :: t else (c :: h) :: t

/-- Embedding of `strings.Split(s, " ")`. -/
def splitSpaces (s : String) : List String :=
  (splitOnChar ' ' s.data).map List.asString

/-- Embedding of `Handler.authenticate`: a non-empty authorization header must be
exactly a two-part `Bearer <token>`; only when no header is present is the
`cms_auth_token` cookie consulted; no header and no (non-empty) cookie
attaches the shared anonymous session and proceeds. -/
def authenticate (st : ValkeyState) (now : Nat)
    (authorizationHeader : String) (cookie : Option String) : AuthOutcome :=
  if authorizationHeader ≠ "" then
    let headerParts := splitSpaces authorizationHeader
    if headerParts.length = 2 ∧ headerParts.getD 0 "" = "Bearer" then
      authenticateToken st now (headerParts.getD 1 "")
    else .invalidTokenError
  else
    match cookie with
    | none => .proceed .anonymous
    | some v => if v = "" then .proceed .anonymous
                else authenticateToken st now v

/-- The outcome of `Handler.requireAuthenticatedUser` given the session the
gate attached. -/
inductive GuardOutcome where
  | authenticationRequiredError
  | proceedNext (s : SessionRef)
deriving DecidableEq, Repr

def requireAuthenticatedUser (s : SessionRef) : GuardOutcome :=
  if isAnonymous s then .authenticationRequiredError else .proceedNext s

def trimLeadingWS : List Char → List Char
  | [] => []
  | c :: rest => if c.isWhitespace then trimLeadingWS rest else c :: rest

/-- Embedding of `strings.TrimSpace`: drop leading and trailing whitespace. -/
def trimSpace (s : String) : String :=
  ((trimLeadingWS ((trimLeadingWS s.data).reverse)).reverse).asString

/-- Embedding of `strings.Split(s, ",")`. -/
def splitCommas (s : String) : List String :=
  (splitOnChar ',' s.data).map List.asString

/-- The `net.SplitHostPort` fallback of `getClientIP`: the host part when
the split succeeds, the whole remote address otherwise.  `splitHost`
abstracts `net.SplitHostPort` (Go standard library), answering the host on
success. -/
def resolveRemote (splitHost : String → Option String)
    (remoteAddr : String) : String :=
  match splitHost remoteAddr with
  | some host => host
  | none => remoteAddr

/-- The `X-Real-IP` stage of `getClientIP`. -/
def resolveXRI (parseOk : String → Bool) (splitHost : String → Option String)
    (xri remoteAddr : String) : String :=
  if xri ≠ "" then
    (if parseOk xri then xri else resolveRemote splitHost remoteAddr)
  else resolveRemote splitHost remoteAddr

/-- Embedding of `getClientIP`: X-Forwarded-For first entry (trimmed) when it parses,
then X-Real-IP when it parses, then the remote address with its port
stripped.  `parseOk` abstracts `net.ParseIP(...) != nil` (Go standard
library); header getters answer `""` for an absent header, as
`http.Header.Get` does. -/
def getClientIP (parseOk : String → Bool) (splitHost : String → Option String)
    (xff xri remoteAddr : String) : String :=
  if xff ≠ "" then
    let ips := splitCommas xff
    if ips.length > 0 then
      let clientIP := trimSpace (ips.getD 0 "")
      if parseOk clientIP then clientIP
      else resolveXRI parseOk splitHost xri remoteAddr
    else resolveXRI parseOk splitHost xri remoteAddr
  else resolveXRI parseOk splitHost xri remoteAddr

/-- The resolution rule exactly as the specification words it: the first
comma-separated, whitespace-trimmed entry of X-Forwarded-For when it
parses as a valid IP literal; otherwise the X-Real-IP value when it parses;
otherwise the transport remote address with its port stripped. -/
def resolveClientIP_spec (parseOk : String → Bool)
    (splitHost : String → Option String) (xff xri remoteAddr : String) :
    String :=
  let first := trimSpace ((splitCommas xff).getD 0 "")
  if parseOk first then first
  else if parseOk xri then xri
  else resolveRemote splitHost remoteAddr

def digitsToNat (l : List Char) : Nat :=
  l.foldl (fun acc c => acc * 10 + (c.toNat - '0'.toNat)) 0

/-- A small concrete IPv4 checker standing in for `net.ParseIP` in the C8
witness: four dot-separated decimal fields, each 0–255 with no leading
zero. -/
def isIPv4Field (f : List Char) : Bool :=
  match f with
  | [] => false
  | _ =>
    f.all Char.isDigit && (f.length == 1 || f.getD 0 ' ' != '0')
      && decide (f.length ≤ 3) && decide (digitsToNat f ≤ 255)

def isIPv4 (s : String) : Bool :=
  let fields := splitOnChar '.' s.data
  fields.length == 4 && fields.all isIPv4Field

/-- Modelled from the spec: one token-bucket limiter
(`golang.org/x/time/rate.Limiter`, an external library), per §4.4: "Each
bucket independently tracks tokens refilled continuously at `rps` up to
`burst` capacity; `allow()` consumes one token if available, else rejects";
a bucket created by `rate.NewLimiter(rps, burst)` starts full. -/
structure RateLimiter where
  tokens : ℚ
  lastRefill : ℚ
  rps : ℚ
  burst : ℚ
deriving DecidableEq, Repr

/-- Modelled from the spec: `rate.Limiter.Allow()` at instant `now` —
refill by elapsed time times `rps`, cap at `burst`, then consume one token
when at least one is available. -/
def limiterAllow (l : RateLimiter) (now : ℚ) : Bool × RateLimiter :=
  let tokens := min l.burst (l.tokens + (now - l.lastRefill) * l.rps)
  if 1 ≤ tokens then (true, ⟨tokens - 1, now, l.rps, l.burst⟩)
  else (false, ⟨tokens, now, l.rps, l.burst⟩)

/-- Embedding of `handlers.ipLimiter`: one per-IP bucket plus the last-seen timestamp
used only by eviction. -/
structure IPLimiterEntry where
  limiter : RateLimiter
  lastSeen : ℚ
deriving DecidableEq, Repr

/-- Embedding of `handlers.IPRateLimiter`: the per-IP map and the configured
parameters. -/
structure IPRateLimiter where
  limiters : List (String × IPLimiterEntry)
  rps : ℚ
  burst : ℚ
deriving DecidableEq, Repr

/-- Embedding of `NewIPRateLimiter`. -/
def newIPRateLimiter (rps burst : ℚ) : IPRateLimiter := ⟨[], rps, burst⟩

/-- One pass of `Handler.rateLimit` for a request from `ip` at instant
`now`: `getLimiter` (create a full fresh bucket for an unseen IP, refresh
last-seen otherwise), then `Allow()` through the returned bucket pointer,
whose mutation lands back in the map entry. -/
def rateLimitStep (irl : IPRateLimiter) (ip : String) (now : ℚ) :
    Bool × IPRateLimiter :=
  match alookup irl.limiters ip with
  | none =>
    let res := limiterAllow ⟨irl.burst, now, irl.rps, irl.burst⟩ now
    (res.1, { irl with limiters := aset irl.limiters ip ⟨res.2, now⟩ })
  | some entry =>
    let res := limiterAllow entry.limiter now
    (res.1, { irl with limiters := aset irl.limiters ip ⟨res.2, now⟩ })

/-- Run `n` back-to-back requests from the same IP at one instant. -/
def runRequests (irl : IPRateLimiter) (ip : String) (now : ℚ) :
    Nat → List Bool × IPRateLimiter
  | 0 => ([], irl)
  | n + 1 =>
    let res := rateLimitStep irl ip now
    let rest := runRequests res.2 ip now n
    (res.1 :: rest.1, rest.2)

/-- A map entry whose bucket holds `t` tokens, last refilled at `now`. -/
def entryAt (t now R B ls : ℚ) : IPLimiterEntry := ⟨⟨t, now, R, B⟩, ls⟩

/-- Replace the limiter map, keeping the configured parameters. -/
def withLimiters (irl : IPRateLimiter)
    (l : List (String × IPLimiterEntry)) : IPRateLimiter :=
  ⟨l, irl.rps, irl.burst⟩

theorem alookup_adel {α : Type} (l : List (String × α)) (k k' : String) :
    alookup (adel l k) k' = if k' = k then none else alookup l k' := by
  induction l with
  | nil => simp [adel, alookup]
  | cons p rest ih =>
    obtain ⟨pk, pv⟩ := p
    by_cases hp : pk = k
    · subst hp
      by_cases hk : k' = pk
      · subst hk
        simp [adel, alookup, ih]
      · simp [adel, alookup, hk, ih]
    · by_cases hk : k' = pk
      · subst hk
        simp [adel, alookup, hp, Ne.symm hp]
      · simp [adel, alookup, hp, hk, ih]

theorem alookup_aset {α : Type} (l : List (String × α)) (k k' : String) (v : α) :
    alookup (aset l k v) k' = if k' = k then some v else alookup l k' := by
  by_cases h : k' = k
  · simp [aset, alookup, h]
  · simp [aset, alookup, h, alookup_adel]

theorem buildKey_valid (token : String) (scope : TokenScope)
    (h : validScope scope) : buildKey token scope = .ok (sessionKey scope token) := by
  rcases h with h | h | h <;> subst h <;> rfl

/-- Splitting a char list at its first colon is unambiguous when the part
before the colon is colon-free. -/
theorem colon_split (xs : List Char) :
    ∀ (ys s t : List Char), (':' ∉ xs) → (':' ∉ ys) →
      xs ++ ':' :: s = ys ++ ':' :: t → xs = ys ∧ s = t := by
  induction xs with
  | nil =>
    intro ys s t _ hy h
    cases ys with
    | nil => simpa using h
    | cons y ys' =>
      simp only [List.nil_append, List.cons_append, List.cons.injEq] at h
      have hy' : y = ':' := h.1.symm
      subst hy'
      exact absurd (List.mem_cons_self _ _) hy
  | cons x xs' ih =>
    intro ys s t hx hy h
    cases ys with
    | nil =>
      simp only [List.cons_append, List.nil_append, List.cons.injEq] at h
      have hx' : x = ':' := h.1
      subst hx'
      exact absurd (List.mem_cons_self _ _) hx
    | cons y ys' =>
      simp only [List.cons_append, List.cons.injEq] at h
      obtain ⟨hxy, hrest⟩ := h
      have hx' : ':' ∉ xs' := fun hm => hx (List.mem_cons_of_mem _ hm)
      have hy' : ':' ∉ ys' := fun hm => hy (List.mem_cons_of_mem _ hm)
      obtain ⟨h1, h2⟩ := ih ys' s t hx' hy' hrest
      exact ⟨by rw [hxy, h1], h2⟩

/-- Appending to a fixed prefix is injective. -/
theorem key_cancel (p t u : String) (h : p ++ t = p ++ u) : t = u := by
  have hd := congrArg String.data h
  simp only [String.data_append] at hd
  exact String.ext (List.append_cancel_left hd)

/-- Two keys whose colon-free leading segments differ are distinct. -/
theorem colon_key_ne (xs ys rs : List Char) (t u : String)
    (hx : ':' ∉ xs) (hy : ':' ∉ ys) (hxy : xs ≠ ys)
    (h : xs ++ ':' :: (rs ++ t.data) = ys ++ ':' :: (rs ++ u.data)) : False :=
  hxy (colon_split xs ys _ _ hx hy h).1

/-- Primary session keys of valid scopes are injective in (scope, token):
the scope strings are colon-free and pairwise distinct, and the first colon
delimits them from the rest of the key. -/
theorem sessionKey_inj (s1 s2 : TokenScope) (t u : String)
    (h1 : validScope s1) (h2 : validScope s2)
    (h : sessionKey s1 t = sessionKey s2 u) : s1 = s2 ∧ t = u := by
  rcases h1 with rfl | rfl | rfl <;> rcases h2 with rfl | rfl | rfl
  · exact ⟨rfl, key_cancel "activation:token:" t u h⟩
  · exact absurd (congrArg String.data h)
      (fun hd => colon_key_ne "activation".data "authentication".data
        "token:".data t u (by decide) (by decide) (by decide) hd)
  · exact absurd (congrArg String.data h)
      (fun hd => colon_key_ne "activation".data "refresh".data
        "token:".data t u (by decide) (by decide) (by decide) hd)
  · exact absurd (congrArg String.data h)
      (fun hd => colon_key_ne "authentication".data "activation".data
        "token:".data t u (by decide) (by decide) (by decide) hd)
  · exact ⟨rfl, key_cancel "authentication:token:" t u h⟩
  · exact absurd (congrArg String.data h)
      (fun hd => colon_key_ne "authentication".data "refresh".data
        "token:".data t u (by decide) (by decide) (by decide) hd)
  · exact absurd (congrArg String.data h)
      (fun hd => colon_key_ne "refresh".data "activation".data
        "token:".data t u (by decide) (by decide) (by decide) hd)
  · exact absurd (congrArg String.data h)
      (fun hd => colon_key_ne "refresh".data "authentication".data
        "token:".data t u (by decide) (by decide) (by decide) hd)
  · exact ⟨rfl, key_cancel "refresh:token:" t u h⟩

theorem buildUserIndexKey_auth (uid : Int) :
    buildUserIndexKey uid ScopeAuthentication
      = "user:" ++ toString uid ++ ":" ++ "authentication" ++ ":sessions" := rfl

theorem buildUserIndexKey_refresh (uid : Int) :
    buildUserIndexKey uid ScopeRefresh
      = "user:" ++ toString uid ++ ":" ++ "refresh" ++ ":sessions" := rfl

/-- A user's authentication index key and refresh index key never collide. -/
theorem userIndexKey_auth_ne_refresh (uid : Int) :
    buildUserIndexKey uid ScopeAuthentication
      ≠ buildUserIndexKey uid ScopeRefresh := by
  intro h
  rw [buildUserIndexKey_auth, buildUserIndexKey_refresh] at h
  have hd := congrArg String.data h
  simp only [String.data_append, List.append_assoc] at hd
  have h1 := List.append_cancel_left hd
  have h2 := List.append_cancel_left h1
  exact absurd h2 (by decide)

theorem strs_setStr (st : ValkeyState) (now : Nat) (k : String)
    (v : SessionData) (ttl : Nat) :
    (setStr st now k v ttl).strs = aset st.strs k ⟨v, now + ttl⟩ := rfl

theorem sets_setStr (st : ValkeyState) (now : Nat) (k : String)
    (v : SessionData) (ttl : Nat) : (setStr st now k v ttl).sets = st.sets := rfl

theorem strs_delStr (st : ValkeyState) (k : String) :
    (delStr st k).strs = adel st.strs k := rfl

theorem sets_delStr (st : ValkeyState) (k : String) :
    (delStr st k).sets = st.sets := rfl

theorem strs_sadd (st : ValkeyState) (k m : String) :
    (sadd st k m).strs = st.strs := rfl

theorem strs_srem (st : ValkeyState) (k m : String) :
    (srem st k m).strs = st.strs := rfl

theorem strs_delSet (st : ValkeyState) (k : String) :
    (delSet st k).strs = st.strs := rfl

theorem smembers_sadd (st : ValkeyState) (k m k' : String) :
    smembers (sadd st k m) k'
      = if k' = k then
          (if m ∈ smembers st k then smembers st k else smembers st k ++ [m])
        else smembers st k' := by
  by_cases h : k' = k <;> simp [smembers, sadd, alookup_aset, h]

theorem smembers_srem (st : ValkeyState) (k m k' : String) :
    smembers (srem st k m) k'
      = if k' = k then (smembers st k).filter (· ≠ m) else smembers st k' := by
  by_cases h : k' = k <;> simp [smembers, srem, alookup_aset, h]

theorem smembers_delSet (st : ValkeyState) (k k' : String) :
    smembers (delSet st k) k' = if k' = k then [] else smembers st k' := by
  by_cases h : k' = k <;> simp [smembers, delSet, alookup_adel, h]

theorem smembers_setStr (st : ValkeyState) (now : Nat) (k : String)
    (v : SessionData) (ttl : Nat) (k' : String) :
    smembers (setStr st now k v ttl) k' = smembers st k' := rfl

theorem smembers_delStr (st : ValkeyState) (k k' : String) :
    smembers (delStr st k) k' = smembers st k' := rfl

theorem sets_delTokenKeys (st : ValkeyState) (scope : TokenScope)
    (ts : List String) : (delTokenKeys st scope ts).sets = st.sets := by
  induction ts generalizing st with
  | nil => rfl
  | cons t rest ih =>
    simp only [delTokenKeys]
    cases buildKey t scope with
    | error e => exact ih st
    | ok key => exact ih (delStr st key)

theorem smembers_delTokenKeys (st : ValkeyState) (scope : TokenScope)
    (ts : List String) (k : String) :
    smembers (delTokenKeys st scope ts) k = smembers st k := by
  simp [smembers, sets_delTokenKeys]

/-- Primary-record lookups after `delTokenKeys` with a valid scope: a key
built from a listed token is absent, all other keys keep their binding. -/
theorem alookup_delTokenKeys (scope : TokenScope) (hv : validScope scope)
    (ts : List String) : ∀ (st : ValkeyState) (K : String),
    alookup (delTokenKeys st scope ts).strs K
      = if ∃ t ∈ ts, sessionKey scope t = K then none
        else alookup st.strs K := by
  induction ts with
  | nil => intro st K; simp [delTokenKeys]
  | cons t0 rest ih =>
    intro st K
    rw [delTokenKeys, buildKey_valid t0 scope hv]
    rw [ih (delStr st (sessionKey scope t0)) K]
    by_cases h0 : sessionKey scope t0 = K
    · by_cases hr : ∃ t ∈ rest, sessionKey scope t = K
      · rw [if_pos hr, if_pos ⟨t0, List.mem_cons_self _ _, h0⟩]
      · rw [if_neg hr, if_pos ⟨t0, List.mem_cons_self _ _, h0⟩,
          strs_delStr, alookup_adel, if_pos h0.symm]
    · by_cases hr : ∃ t ∈ rest, sessionKey scope t = K
      · have hc : ∃ t ∈ t0 :: rest, sessionKey scope t = K := by
          obtain ⟨t, ht, he⟩ := hr
          exact ⟨t, List.mem_cons_of_mem _ ht, he⟩
        rw [if_pos hr, if_pos hc]
      · have hc : ¬ ∃ t ∈ t0 :: rest, sessionKey scope t = K := by
          rintro ⟨t, ht, he⟩
          rcases List.mem_cons.mp ht with rfl | ht'
          · exact h0 he
          · exact hr ⟨t, ht', he⟩
        rw [if_neg hr, if_neg hc, strs_delStr, alookup_adel,
          if_neg (fun he => h0 he.symm)]

/-- A key absent before `delTokenKeys` stays absent (the pass only
deletes). -/
theorem alookup_delTokenKeys_none (scope : TokenScope) (ts : List String) :
    ∀ (st : ValkeyState) (K : String), alookup st.strs K = none →
      alookup (delTokenKeys st scope ts).strs K = none := by
  induction ts with
  | nil => intro st K h; exact h
  | cons t0 rest ih =>
    intro st K h
    rw [delTokenKeys]
    cases buildKey t0 scope with
    | error e => exact ih st K h
    | ok key =>
      refine ih (delStr st key) K ?_
      rw [strs_delStr, alookup_adel]
      by_cases hk : K = key <;> simp [hk, h]

theorem scopeString_ok (s : TokenScope) (str : String)
    (h : scopeString s = .ok str) : validScope s := by
  unfold scopeString at h
  split at h
  · exact Or.inl rfl
  · exact Or.inr (Or.inl rfl)
  · exact Or.inr (Or.inr rfl)
  · exact absurd h (by simp)

theorem buildKey_ok (token : String) (s : TokenScope) (k : String)
    (h : buildKey token s = .ok k) :
    validScope s ∧ k = sessionKey s token := by
  unfold buildKey at h
  cases hs : scopeString s with
  | error e => rw [hs] at h; exact absurd h (by simp)
  | ok str =>
    rw [hs] at h
    have hv := scopeString_ok s str hs
    refine ⟨hv, ?_⟩
    have : k = str ++ ":token:" ++ token := by
      cases h; rfl
    rw [this, sessionKey, hs]

theorem storeSession_valid (st : ValkeyState) (now : Nat) (token : String)
    (scope : TokenScope) (sess : Session) (hv : validScope scope) :
    storeSession st now token scope sess
      = .ok (storeRun st now token scope sess) := by
  rcases hv with rfl | rfl | rfl <;> rfl

theorem alookup_storeRun (st : ValkeyState) (now : Nat) (token : String)
    (scope : TokenScope) (sess : Session) (K : String) :
    alookup (storeRun st now token scope sess).strs K
      = if K = sessionKey scope token then
          some ⟨mkData sess (now + scopeTTL scope), now + scopeTTL scope⟩
        else alookup st.strs K := by
  rw [storeRun, strs_sadd, strs_setStr, alookup_aset]

theorem smembers_storeRun (st : ValkeyState) (now : Nat) (token : String)
    (scope : TokenScope) (sess : Session) (k : String) :
    smembers (storeRun st now token scope sess) k
      = if k = buildUserIndexKey sess.userID scope then
          (if token ∈ smembers st (buildUserIndexKey sess.userID scope)
            then smembers st (buildUserIndexKey sess.userID scope)
            else smembers st (buildUserIndexKey sess.userID scope) ++ [token])
        else smembers st k := by
  rw [storeRun, smembers_sadd]
  by_cases h : k = buildUserIndexKey sess.userID scope <;>
    simp [h, smembers_setStr]

theorem getSession_valid (st : ValkeyState) (now : Nat) (token : String)
    (scope : TokenScope) (hv : validScope scope) :
    getSession st now token scope
      = match getStr st now (sessionKey scope token) with
        | none => .error .sessionNotFound
        | some d => .ok ⟨d.userID, d.email, d.permissions, d.activated⟩ := by
  rcases hv with rfl | rfl | rfl <;> rfl

theorem deleteAll_eq (st : ValkeyState) (userID : Int) (scope : TokenScope) :
    deleteAllSessionsForUser st userID scope
      = .ok (deleteAllRun st userID scope) := by
  unfold deleteAllSessionsForUser deleteAllRun
  by_cases h : smembers st (buildUserIndexKey userID scope) = [] <;> simp [h]

theorem strs_deleteAllRun (st : ValkeyState) (userID : Int)
    (scope : TokenScope) (hv : validScope scope) (K : String) :
    alookup (deleteAllRun st userID scope).strs K
      = if ∃ t ∈ smembers st (buildUserIndexKey userID scope),
            sessionKey scope t = K then none
        else alookup st.strs K := by
  unfold deleteAllRun
  by_cases h : smembers st (buildUserIndexKey userID scope) = []
  · rw [if_pos h, if_neg]
    rintro ⟨t, ht, _⟩
    rw [h] at ht
    exact absurd ht (List.not_mem_nil t)
  · rw [if_neg h]
    rw [strs_delSet, alookup_delTokenKeys scope hv]

theorem smembers_deleteAllRun (st : ValkeyState) (userID : Int)
    (scope : TokenScope) (k : String) :
    smembers (deleteAllRun st userID scope) k
      = if k = buildUserIndexKey userID scope then []
        else smembers st k := by
  unfold deleteAllRun
  by_cases h : smembers st (buildUserIndexKey userID scope) = []
  · rw [if_pos h]
    by_cases hk : k = buildUserIndexKey userID scope
    · rw [if_pos hk, hk, h]
    · rw [if_neg hk]
  · rw [if_neg h, smembers_delSet, smembers_delTokenKeys]

theorem applyOp_store_eq (st : ValkeyState) (now : Nat) (token : String)
    (scope : TokenScope) (sess : Session) (st' : ValkeyState)
    (h : storeSession st now token scope sess = .ok st') :
    applyOp st (SessionOp.store now token scope sess) = st' := by
  simp [applyOp, h]

theorem applyOp_delAll_eq (st : ValkeyState) (userID : Int)
    (scope : TokenScope) :
    applyOp st (SessionOp.delAll userID scope) = deleteAllRun st userID scope := by
  simp [applyOp, deleteAll_eq]

/-- The operation `DeleteSession` always succeeds in the model (the not-found lookup is
swallowed), and its only effect on primary records is deleting the
authentication-scope key of the token. -/
theorem deleteSession_ok (st : ValkeyState) (now : Nat) (token : String) :
    ∃ st', deleteSession st now token = .ok st'
      ∧ st'.strs = adel st.strs (sessionKey ScopeAuthentication token) := by
  unfold deleteSession
  rw [buildKey_valid token ScopeAuthentication (Or.inr (Or.inl rfl)),
    getSession_valid st now token ScopeAuthentication (Or.inr (Or.inl rfl))]
  cases getStr st now (sessionKey ScopeAuthentication token) with
  | none => exact ⟨_, rfl, rfl⟩
  | some d => exact ⟨_, rfl, by rw [strs_srem, strs_delStr]⟩

/-- An adapter operation that does not store this (token, scope) pair keeps
its primary key absent. -/
theorem applyOp_preserves_absent (st : ValkeyState) (op : SessionOp)
    (token : String) (scope : TokenScope) (hv : validScope scope)
    (habs : alookup st.strs (sessionKey scope token) = none)
    (hop : ¬ storesToken op token scope) :
    alookup (applyOp st op).strs (sessionKey scope token) = none := by
  cases op with
  | store n t' s' x =>
    cases hbk : buildKey t' s' with
    | error e =>
      have hse : storeSession st n t' s' x = .error .internalError := by
        unfold storeSession
        rw [hbk]
      simp [applyOp, hse, habs]
    | ok key =>
      obtain ⟨hv', _⟩ := buildKey_ok t' s' key hbk
      rw [applyOp_store_eq st n t' s' x _ (storeSession_valid st n t' s' x hv')]
      rw [alookup_storeRun, if_neg, habs]
      intro he
      obtain ⟨hs, ht⟩ := sessionKey_inj scope s' token t' hv hv' he
      exact hop ⟨n, x, by rw [hs, ht]⟩
  | delAll uid s' =>
    rw [applyOp_delAll_eq]
    unfold deleteAllRun
    by_cases h : smembers st (buildUserIndexKey uid s') = []
    · rw [if_pos h]; exact habs
    · rw [if_neg h, strs_delSet]
      exact alookup_delTokenKeys_none s' _ st _ habs
  | delOne n t' =>
    obtain ⟨st', hok, hstrs⟩ := deleteSession_ok st n t'
    have : applyOp st (SessionOp.delOne n t') = st' := by simp [applyOp, hok]
    rw [this, hstrs, alookup_adel]
    by_cases hk : sessionKey scope token = sessionKey ScopeAuthentication t' <;>
      simp [hk, habs]

theorem applyOps_preserves_absent (ops : List SessionOp) (token : String)
    (scope : TokenScope) (hv : validScope scope) :
    ∀ st : ValkeyState, alookup st.strs (sessionKey scope token) = none →
      (∀ op ∈ ops, ¬ storesToken op token scope) →
      alookup (applyOps st ops).strs (sessionKey scope token) = none := by
  induction ops with
  | nil => intro st habs _; exact habs
  | cons op rest ih =>
    intro st habs hops
    rw [applyOps, List.foldl_cons]
    exact ih (applyOp st op)
      (applyOp_preserves_absent st op token scope hv habs
        (hops op (List.mem_cons_self _ _)))
      (fun o ho => hops o (List.mem_cons_of_mem _ ho))

/-- C1: for every valid scope and session, `StoreSession` followed by
`GetSession` on the same token and scope returns a session with the stored
user id, email, permission set, and activated flag, for as long as the
record is unexpired; once the record has expired, or when the token was
never stored under that scope in the history of the store, `GetSession`
answers `sessionNotFound` and never a different session. -/
theorem store_get_roundtrip_and_notFound :
    (∀ (st : ValkeyState) (now : Nat) (token : String) (scope : TokenScope)
        (sess : Session) (st' : ValkeyState), validScope scope →
        storeSession st now token scope sess = .ok st' →
        (∀ t, t < now + scopeTTL scope →
            getSession st' t token scope = .ok sess)
        ∧ (∀ t, now + scopeTTL scope ≤ t →
            getSession st' t token scope = .error .sessionNotFound))
    ∧ (∀ (ops : List SessionOp) (now : Nat) (token : String)
        (scope : TokenScope), validScope scope →
        (∀ op ∈ ops, ¬ storesToken op token scope) →
        getSession (applyOps emptyState ops) now token scope
          = .error .sessionNotFound) := by
  constructor
  · intro st now token scope sess st' hv hst
    rw [storeSession_valid st now token scope sess hv] at hst
    have hst' := (Except.ok.injEq _ _).mp hst.symm
    subst hst'
    have hl : alookup (storeRun st now token scope sess).strs
        (sessionKey scope token)
        = some ⟨mkData sess (now + scopeTTL scope), now + scopeTTL scope⟩ := by
      rw [alookup_storeRun, if_pos rfl]
    constructor
    · intro t ht
      rw [getSession_valid _ _ _ _ hv]
      simp only [getStr, hl, if_pos ht]
      rfl
    · intro t ht
      rw [getSession_valid _ _ _ _ hv]
      simp only [getStr, hl, if_neg (Nat.not_lt.mpr ht)]
  · intro ops now token scope hv hops
    have habs := applyOps_preserves_absent ops token scope hv emptyState rfl hops
    rw [getSession_valid _ _ _ _ hv]
    simp only [getStr, habs]

/-- Concrete instantiation of the C1 theorem. -/
theorem store_get_roundtrip_and_notFound_witness :
    ∃ st', storeSession emptyState 0 "A" ScopeAuthentication
        ⟨5, "e", ["p"], true⟩ = .ok st'
      ∧ getSession st' 3 "A" ScopeAuthentication = .ok ⟨5, "e", ["p"], true⟩
      ∧ getSession st' 600 "A" ScopeAuthentication = .error .sessionNotFound
      ∧ getSession (applyOps emptyState
          [SessionOp.store 0 "A" ScopeAuthentication ⟨5, "e", ["p"], true⟩])
          3 "B" ScopeAuthentication = .error .sessionNotFound := by
  refine ⟨_, rfl, ?_, ?_, ?_⟩
  · exact (store_get_roundtrip_and_notFound.1 emptyState 0 "A"
      ScopeAuthentication ⟨5, "e", ["p"], true⟩ _
      (Or.inr (Or.inl rfl)) rfl).1 3 (by decide)
  · exact (store_get_roundtrip_and_notFound.1 emptyState 0 "A"
      ScopeAuthentication ⟨5, "e", ["p"], true⟩ _
      (Or.inr (Or.inl rfl)) rfl).2 600 (by decide)
  · refine store_get_roundtrip_and_notFound.2
      [SessionOp.store 0 "A" ScopeAuthentication ⟨5, "e", ["p"], true⟩]
      3 "B" ScopeAuthentication (Or.inr (Or.inl rfl)) ?_
    intro op hop
    rw [List.mem_singleton] at hop
    subst hop
    rintro ⟨n, x, h⟩
    injection h with h1 h2 h3 h4
    exact absurd h2 (by decide)

theorem deleteAllRun_of_empty (st : ValkeyState) (userID : Int)
    (scope : TokenScope)
    (h : smembers st (buildUserIndexKey userID scope) = []) :
    deleteAllRun st userID scope = st := by
  unfold deleteAllRun
  rw [if_pos h]

/-- C4: deleting all of a user's sessions for a valid scope succeeds, makes
`GetSession` answer not-found for every token that was in the user's index,
and a repeated call on the now-empty index is a no-op success; a token just
stored is always in its user's index, and deleting with an already-empty
index is a no-op success. -/
theorem deleteAll_invalidates_and_idempotent :
    (∀ (st : ValkeyState) (userID : Int) (scope : TokenScope),
        validScope scope →
        ∃ st', deleteAllSessionsForUser st userID scope = .ok st'
          ∧ (∀ tok ∈ smembers st (buildUserIndexKey userID scope), ∀ now,
              getSession st' now tok scope = .error .sessionNotFound)
          ∧ deleteAllSessionsForUser st' userID scope = .ok st')
    ∧ (∀ (st : ValkeyState) (now : Nat) (token : String) (scope : TokenScope)
        (sess : Session) (st' : ValkeyState),
        storeSession st now token scope sess = .ok st' →
        token ∈ smembers st' (buildUserIndexKey sess.userID scope))
    ∧ (∀ (st : ValkeyState) (userID : Int) (scope : TokenScope),
        smembers st (buildUserIndexKey userID scope) = [] →
        deleteAllSessionsForUser st userID scope = .ok st) := by
  refine ⟨?_, ?_, ?_⟩
  · intro st userID scope hv
    refine ⟨deleteAllRun st userID scope, deleteAll_eq st userID scope, ?_, ?_⟩
    · intro tok htok now
      rw [getSession_valid _ _ _ _ hv]
      have habs : alookup (deleteAllRun st userID scope).strs
          (sessionKey scope tok) = none := by
        rw [strs_deleteAllRun st userID scope hv,
          if_pos ⟨tok, htok, rfl⟩]
      simp only [getStr, habs]
    · have hempty : smembers (deleteAllRun st userID scope)
          (buildUserIndexKey userID scope) = [] := by
        rw [smembers_deleteAllRun, if_pos rfl]
      rw [deleteAll_eq, deleteAllRun_of_empty _ _ _ hempty]
  · intro st now token scope sess st' hst
    cases hbk : buildKey token scope with
    | error e =>
      unfold storeSession at hst
      rw [hbk] at hst
      exact absurd hst (by simp)
    | ok key =>
      obtain ⟨hv, _⟩ := buildKey_ok token scope key hbk
      rw [storeSession_valid st now token scope sess hv] at hst
      have hst' := (Except.ok.injEq _ _).mp hst.symm
      subst hst'
      rw [smembers_storeRun, if_pos rfl]
      by_cases hmem : token ∈ smembers st (buildUserIndexKey sess.userID scope)
      · rw [if_pos hmem]; exact hmem
      · rw [if_neg hmem]
        exact List.mem_append_right _ (List.mem_singleton_self token)
  · intro st userID scope h
    unfold deleteAllSessionsForUser
    rw [if_pos h]

/-- Concrete instantiation of the C4 theorem: store a session, delete all
sessions of the user, observe not-found, delete again as a no-op. -/
theorem deleteAll_invalidates_and_idempotent_witness :
    ∃ st st', storeSession emptyState 0 "A" ScopeRefresh
        ⟨9, "e", [], false⟩ = .ok st
      ∧ "A" ∈ smembers st (buildUserIndexKey 9 ScopeRefresh)
      ∧ deleteAllSessionsForUser st 9 ScopeRefresh = .ok st'
      ∧ getSession st' 0 "A" ScopeRefresh = .error .sessionNotFound
      ∧ deleteAllSessionsForUser st' 9 ScopeRefresh = .ok st'
      ∧ deleteAllSessionsForUser emptyState 9 ScopeRefresh = .ok emptyState := by
  obtain ⟨st', h1, h2, h3⟩ :=
    deleteAll_invalidates_and_idempotent.1
      (storeRun emptyState 0 "A" ScopeRefresh ⟨9, "e", [], false⟩)
      9 ScopeRefresh (Or.inr (Or.inr rfl))
  refine ⟨_, st', rfl, ?_, h1, ?_, h3, ?_⟩
  · exact deleteAll_invalidates_and_idempotent.2.1 emptyState 0 "A"
      ScopeRefresh ⟨9, "e", [], false⟩ _ rfl
  · exact h2 "A" (by decide) 0
  · exact deleteAll_invalidates_and_idempotent.2.2 emptyState 9 ScopeRefresh rfl

theorem loginSessions_eq (st : ValkeyState) (now : Nat) (sess : Session)
    (a r : String) :
    loginSessions st now sess a r = .ok (loginRun st now sess a r) := by
  unfold loginSessions loginRun
  rw [deleteAll_eq]
  simp only
  rw [deleteAll_eq]
  simp only
  rw [storeSession_valid _ _ _ _ _ (Or.inr (Or.inl rfl))]
  simp only
  rw [storeSession_valid _ _ _ _ _ (Or.inr (Or.inr rfl))]

theorem refreshSessions_eq (st : ValkeyState) (now : Nat)
    (refreshToken accessToken : String) (sess : Session)
    (h : getSession st now refreshToken ScopeRefresh = .ok sess) :
    refreshSessions st now refreshToken accessToken
      = .ok (storeRun (deleteAllRun st sess.userID ScopeAuthentication)
          now accessToken ScopeAuthentication sess, sess) := by
  unfold refreshSessions
  rw [h]
  simp only
  rw [deleteAll_eq]
  simp only
  rw [storeSession_valid _ _ _ _ _ (Or.inr (Or.inl rfl))]

/-- What a successful login leaves in the primary records, for any key. -/
theorem alookup_loginRun (st : ValkeyState) (now : Nat) (sess : Session)
    (a r : String) (K : String) :
    alookup (loginRun st now sess a r).strs K
      = if K = sessionKey ScopeRefresh r then
          some ⟨mkData sess (now + scopeTTL ScopeRefresh),
            now + scopeTTL ScopeRefresh⟩
        else if K = sessionKey ScopeAuthentication a then
          some ⟨mkData sess (now + scopeTTL ScopeAuthentication),
            now + scopeTTL ScopeAuthentication⟩
        else if ∃ t ∈ smembers st
            (buildUserIndexKey sess.userID ScopeAuthentication),
            sessionKey ScopeAuthentication t = K then none
        else if ∃ t ∈ smembers st
            (buildUserIndexKey sess.userID ScopeRefresh),
            sessionKey ScopeRefresh t = K then none
        else alookup st.strs K := by
  unfold loginRun
  rw [alookup_storeRun]
  by_cases h2 : K = sessionKey ScopeRefresh r
  · rw [if_pos h2, if_pos h2]
  · rw [if_neg h2, if_neg h2, alookup_storeRun]
    by_cases h1 : K = sessionKey ScopeAuthentication a
    · rw [if_pos h1, if_pos h1]
    · rw [if_neg h1, if_neg h1,
        strs_deleteAllRun _ _ _ (Or.inr (Or.inr rfl)),
        smembers_deleteAllRun]
      rw [if_neg (userIndexKey_auth_ne_refresh sess.userID).symm,
        strs_deleteAllRun _ _ _ (Or.inr (Or.inl rfl))]
      by_cases hA : ∃ t ∈ smembers st
          (buildUserIndexKey sess.userID ScopeAuthentication),
          sessionKey ScopeAuthentication t = K
      · rw [if_pos hA, if_pos hA]
        by_cases hR : ∃ t ∈ smembers st
            (buildUserIndexKey sess.userID ScopeRefresh),
            sessionKey ScopeRefresh t = K
        · rw [if_pos hR]
        · rw [if_neg hR]
      · rw [if_neg hA, if_neg hA]

/-- What a successful login leaves in the user's two index sets. -/
theorem smembers_loginRun (st : ValkeyState) (now : Nat) (sess : Session)
    (a r : String) :
    smembers (loginRun st now sess a r)
        (buildUserIndexKey sess.userID ScopeAuthentication) = [a]
    ∧ smembers (loginRun st now sess a r)
        (buildUserIndexKey sess.userID ScopeRefresh) = [r] := by
  have hAR := userIndexKey_auth_ne_refresh sess.userID
  have hbase1 : smembers
      (deleteAllRun (deleteAllRun st sess.userID ScopeAuthentication)
        sess.userID ScopeRefresh)
      (buildUserIndexKey sess.userID ScopeAuthentication) = [] := by
    rw [smembers_deleteAllRun, if_neg hAR, smembers_deleteAllRun, if_pos rfl]
  have hbase2 : smembers
      (deleteAllRun (deleteAllRun st sess.userID ScopeAuthentication)
        sess.userID ScopeRefresh)
      (buildUserIndexKey sess.userID ScopeRefresh) = [] := by
    rw [smembers_deleteAllRun, if_pos rfl]
  constructor
  · unfold loginRun
    rw [smembers_storeRun, if_neg hAR, smembers_storeRun, if_pos rfl,
      hbase1]
    simp
  · unfold loginRun
    rw [smembers_storeRun, if_pos rfl, smembers_storeRun, if_neg hAR.symm,
      hbase2]
    simp

theorem getSession_of_alookup_none (st : ValkeyState) (now : Nat)
    (token : String) (scope : TokenScope) (hv : validScope scope)
    (h : alookup st.strs (sessionKey scope token) = none) :
    getSession st now token scope = .error .sessionNotFound := by
  rw [getSession_valid _ _ _ _ hv]
  simp only [getStr, h]

theorem getSession_of_alookup_live (st : ValkeyState) (now : Nat)
    (token : String) (scope : TokenScope) (sess : Session) (e : Nat)
    (hv : validScope scope)
    (h : alookup st.strs (sessionKey scope token) = some ⟨mkData sess e, e⟩)
    (hlt : now < e) : getSession st now token scope = .ok sess := by
  rw [getSession_valid _ _ _ _ hv]
  simp only [getStr, h, if_pos hlt]
  rfl

theorem sessionKey_ne (s1 s2 : TokenScope) (t u : String)
    (h1 : validScope s1) (h2 : validScope s2) (h : s1 ≠ s2 ∨ t ≠ u) :
    sessionKey s1 t ≠ sessionKey s2 u := by
  intro he
  obtain ⟨hs, ht⟩ := sessionKey_inj s1 s2 t u h1 h2 he
  rcases h with h | h
  · exact h hs
  · exact h ht

/-- C2: after a second login of the same user (with fresh token
plaintexts), both tokens issued by the first login resolve to not-found,
the user's two indexes hold exactly the new access and refresh token, and
the new pair resolves to the stored session. -/
theorem second_login_invalidates_first :
    ∀ (st : ValkeyState) (now1 now2 : Nat) (sess1 sess2 : Session)
      (a1 r1 a2 r2 : String) (st1 st2 : ValkeyState),
      sess1.userID = sess2.userID → a1 ≠ a2 → r1 ≠ r2 →
      loginSessions st now1 sess1 a1 r1 = .ok st1 →
      loginSessions st1 now2 sess2 a2 r2 = .ok st2 →
      (∀ t, getSession st2 t a1 ScopeAuthentication
          = .error .sessionNotFound)
      ∧ (∀ t, getSession st2 t r1 ScopeRefresh = .error .sessionNotFound)
      ∧ smembers st2 (buildUserIndexKey sess2.userID ScopeAuthentication)
          = [a2]
      ∧ smembers st2 (buildUserIndexKey sess2.userID ScopeRefresh) = [r2]
      ∧ getSession st2 now2 a2 ScopeAuthentication = .ok sess2
      ∧ getSession st2 now2 r2 ScopeRefresh = .ok sess2 := by
  intro st now1 now2 sess1 sess2 a1 r1 a2 r2 st1 st2 huid ha hr h1 h2
  have hvA : validScope ScopeAuthentication := Or.inr (Or.inl rfl)
  have hvR : validScope ScopeRefresh := Or.inr (Or.inr rfl)
  rw [loginSessions_eq] at h1
  have h1' := (Except.ok.injEq _ _).mp h1
  subst h1'
  rw [loginSessions_eq] at h2
  have h2' := (Except.ok.injEq _ _).mp h2
  subst h2'
  have hidx := smembers_loginRun st now1 sess1 a1 r1
  have hidxA : smembers (loginRun st now1 sess1 a1 r1)
      (buildUserIndexKey sess2.userID ScopeAuthentication) = [a1] := by
    rw [← huid]; exact hidx.1
  have hidxR : smembers (loginRun st now1 sess1 a1 r1)
      (buildUserIndexKey sess2.userID ScopeRefresh) = [r1] := by
    rw [← huid]; exact hidx.2
  refine ⟨?_, ?_, ?_, ?_, ?_, ?_⟩
  · intro t
    refine getSession_of_alookup_none _ _ _ _ hvA ?_
    rw [alookup_loginRun,
      if_neg (sessionKey_ne _ _ _ _ hvA hvR (Or.inl (by decide))),
      if_neg (sessionKey_ne _ _ _ _ hvA hvA (Or.inr ha)),
      if_pos ⟨a1, by rw [hidxA]; exact List.mem_singleton_self a1, rfl⟩]
  · intro t
    refine getSession_of_alookup_none _ _ _ _ hvR ?_
    have hnoA : ¬ ∃ u ∈ smembers (loginRun st now1 sess1 a1 r1)
        (buildUserIndexKey sess2.userID ScopeAuthentication),
        sessionKey ScopeAuthentication u = sessionKey ScopeRefresh r1 := by
      rintro ⟨u, _, he⟩
      exact sessionKey_ne _ _ _ _ hvA hvR (Or.inl (by decide)) he
    rw [alookup_loginRun,
      if_neg (sessionKey_ne _ _ _ _ hvR hvR (Or.inr hr)),
      if_neg (sessionKey_ne _ _ _ _ hvR hvA (Or.inl (by decide))),
      if_neg hnoA,
      if_pos ⟨r1, by rw [hidxR]; exact List.mem_singleton_self r1, rfl⟩]
  · exact (smembers_loginRun _ _ _ _ _).1
  · exact (smembers_loginRun _ _ _ _ _).2
  · refine getSession_of_alookup_live _ _ _ _ sess2
      (now2 + scopeTTL ScopeAuthentication) hvA ?_ ?_
    · rw [alookup_loginRun,
        if_neg (sessionKey_ne _ _ _ _ hvA hvR (Or.inl (by decide))),
        if_pos rfl]
    · exact Nat.lt_add_of_pos_right (by decide)
  · refine getSession_of_alookup_live _ _ _ _ sess2
      (now2 + scopeTTL ScopeRefresh) hvR ?_ ?_
    · rw [alookup_loginRun, if_pos rfl]
    · exact Nat.lt_add_of_pos_right (by decide)

/-- Concrete instantiation of the C2 theorem: the same user logs in twice;
the first login's tokens stop resolving, the new access token resolves. -/
theorem second_login_invalidates_first_witness :
    getSession (loginRun (loginRun emptyState 0 ⟨3, "e", [], true⟩ "A1" "R1")
        5 ⟨3, "e", [], true⟩ "A2" "R2") 5 "A1" ScopeAuthentication
      = .error .sessionNotFound
    ∧ getSession (loginRun (loginRun emptyState 0 ⟨3, "e", [], true⟩ "A1" "R1")
        5 ⟨3, "e", [], true⟩ "A2" "R2") 5 "R1" ScopeRefresh
      = .error .sessionNotFound
    ∧ smembers (loginRun (loginRun emptyState 0 ⟨3, "e", [], true⟩ "A1" "R1")
        5 ⟨3, "e", [], true⟩ "A2" "R2")
        (buildUserIndexKey 3 ScopeAuthentication) = ["A2"]
    ∧ getSession (loginRun (loginRun emptyState 0 ⟨3, "e", [], true⟩ "A1" "R1")
        5 ⟨3, "e", [], true⟩ "A2" "R2") 5 "A2" ScopeAuthentication
      = .ok ⟨3, "e", [], true⟩ := by
  obtain ⟨c1, c2, c3, _, c5, _⟩ := second_login_invalidates_first
    emptyState 0 5 ⟨3, "e", [], true⟩ ⟨3, "e", [], true⟩ "A1" "R1" "A2" "R2"
    (loginRun emptyState 0 ⟨3, "e", [], true⟩ "A1" "R1")
    (loginRun (loginRun emptyState 0 ⟨3, "e", [], true⟩ "A1" "R1")
      5 ⟨3, "e", [], true⟩ "A2" "R2")
    rfl (by decide) (by decide) (loginSessions_eq _ _ _ _ _)
    (loginSessions_eq _ _ _ _ _)
  exact ⟨c1 5, c2 5, c3, c5⟩

/-- C3: refreshing with a valid refresh token deletes every prior
authentication-scope session of the user, stores exactly the one new access
session (the user's authentication index holds only the new token), and
leaves the refresh session untouched and still resolvable. -/
theorem refresh_rotates_access_only :
    ∀ (st : ValkeyState) (now : Nat) (rt na : String) (sess : Session)
      (st' : ValkeyState) (s' : Session),
      getSession st now rt ScopeRefresh = .ok sess →
      (∀ t ∈ smembers st (buildUserIndexKey sess.userID ScopeAuthentication),
        t ≠ na) →
      refreshSessions st now rt na = .ok (st', s') →
      s' = sess
      ∧ (∀ tok ∈ smembers st
            (buildUserIndexKey sess.userID ScopeAuthentication), ∀ t,
          getSession st' t tok ScopeAuthentication = .error .sessionNotFound)
      ∧ smembers st' (buildUserIndexKey sess.userID ScopeAuthentication)
          = [na]
      ∧ getSession st' now na ScopeAuthentication = .ok sess
      ∧ getSession st' now rt ScopeRefresh = .ok sess := by
  intro st now rt na sess st' s' hrt hfresh hrun
  have hvA : validScope ScopeAuthentication := Or.inr (Or.inl rfl)
  have hvR : validScope ScopeRefresh := Or.inr (Or.inr rfl)
  rw [refreshSessions_eq st now rt na sess hrt] at hrun
  have hpair := (Except.ok.injEq _ _).mp hrun
  have hst' : st' = storeRun (deleteAllRun st sess.userID ScopeAuthentication)
      now na ScopeAuthentication sess := (Prod.mk.injEq _ _ _ _ |>.mp hpair).1.symm
  have hs' : s' = sess := (Prod.mk.injEq _ _ _ _ |>.mp hpair).2.symm
  subst hst'
  refine ⟨hs', ?_, ?_, ?_, ?_⟩
  · intro tok htok t
    refine getSession_of_alookup_none _ _ _ _ hvA ?_
    rw [alookup_storeRun,
      if_neg (sessionKey_ne _ _ _ _ hvA hvA (Or.inr (hfresh tok htok))),
      strs_deleteAllRun _ _ _ hvA, if_pos ⟨tok, htok, rfl⟩]
  · rw [smembers_storeRun, if_pos rfl, smembers_deleteAllRun, if_pos rfl]
    simp
  · refine getSession_of_alookup_live _ _ _ _ sess
      (now + scopeTTL ScopeAuthentication) hvA ?_ ?_
    · rw [alookup_storeRun, if_pos rfl]
    · exact Nat.lt_add_of_pos_right (by decide)
  · have heq : alookup (storeRun
        (deleteAllRun st sess.userID ScopeAuthentication)
        now na ScopeAuthentication sess).strs (sessionKey ScopeRefresh rt)
        = alookup st.strs (sessionKey ScopeRefresh rt) := by
      rw [alookup_storeRun,
        if_neg (sessionKey_ne _ _ _ _ hvR hvA (Or.inl (by decide))),
        strs_deleteAllRun _ _ _ hvA, if_neg]
      rintro ⟨u, _, he⟩
      exact sessionKey_ne _ _ _ _ hvA hvR (Or.inl (by decide)) he
    rw [getSession_valid _ _ _ _ hvR] at hrt ⊢
    simp only [getStr, heq] at hrt ⊢
    exact hrt

/-- Concrete instantiation of the C3 theorem. -/
theorem refresh_rotates_access_only_witness :
    ∃ st', refreshSessions
        (storeRun emptyState 0 "RT" ScopeRefresh ⟨9, "e", [], true⟩)
        1 "RT" "NA" = .ok (st', ⟨9, "e", [], true⟩)
      ∧ smembers st' (buildUserIndexKey 9 ScopeAuthentication) = ["NA"]
      ∧ getSession st' 1 "NA" ScopeAuthentication = .ok ⟨9, "e", [], true⟩
      ∧ getSession st' 1 "RT" ScopeRefresh = .ok ⟨9, "e", [], true⟩ := by
  obtain ⟨hs, _, c3, c4, c5⟩ := refresh_rotates_access_only
    (storeRun emptyState 0 "RT" ScopeRefresh ⟨9, "e", [], true⟩)
    1 "RT" "NA" ⟨9, "e", [], true⟩
    (storeRun (deleteAllRun
        (storeRun emptyState 0 "RT" ScopeRefresh ⟨9, "e", [], true⟩)
        9 ScopeAuthentication)
      1 "NA" ScopeAuthentication ⟨9, "e", [], true⟩)
    ⟨9, "e", [], true⟩ (by rfl) (by decide)
    (refreshSessions_eq _ _ _ _ _ (by rfl))
  exact ⟨_, refreshSessions_eq _ _ _ _ _ (by rfl), c3, c4, c5⟩

/-- C5 counterexample: `DeleteSession` on a token with no session stored
under the authentication scope returns success, not `sessionNotFound` — the
lookup's not-found outcome is swallowed and the unconditional DEL of the
absent key succeeds. -/
theorem deleteSession_missing_returns_ok :
    deleteSession emptyState 0 "tok" = .ok emptyState
    ∧ deleteSession emptyState 0 "tok" ≠ .error .sessionNotFound := by
  refine ⟨rfl, ?_⟩
  intro h
  rw [show deleteSession emptyState 0 "tok" = .ok emptyState from rfl] at h
  exact Except.noConfusion h

/-- C5 amended: `DeleteSession` tries the authentication scope; when no
session exists there it still returns success after deleting the (absent)
primary key; when a session does exist it removes the primary record and
removes the token from that user's authentication index. -/
theorem deleteSession_behaviour :
    (∀ (st : ValkeyState) (now : Nat) (token : String),
        getSession st now token ScopeAuthentication
            = .error .sessionNotFound →
        deleteSession st now token
          = .ok (delStr st (sessionKey ScopeAuthentication token)))
    ∧ (∀ (st : ValkeyState) (now : Nat) (token : String) (sess : Session),
        getSession st now token ScopeAuthentication = .ok sess →
        ∃ st', deleteSession st now token = .ok st'
          ∧ alookup st'.strs (sessionKey ScopeAuthentication token) = none
          ∧ token ∉ smembers st'
              (buildUserIndexKey sess.userID ScopeAuthentication)) := by
  have hvA : validScope ScopeAuthentication := Or.inr (Or.inl rfl)
  constructor
  · intro st now token h
    unfold deleteSession
    rw [buildKey_valid token ScopeAuthentication hvA, h]
  · intro st now token sess h
    unfold deleteSession
    rw [buildKey_valid token ScopeAuthentication hvA, h]
    refine ⟨_, rfl, ?_, ?_⟩
    · rw [strs_srem, strs_delStr, alookup_adel, if_pos rfl]
    · rw [smembers_srem, if_pos rfl]
      simp

/-- Concrete instantiation of the C5 amended theorem. -/
theorem deleteSession_behaviour_witness :
    deleteSession emptyState 7 "X"
        = .ok (delStr emptyState (sessionKey ScopeAuthentication "X"))
    ∧ ∃ st', deleteSession
        (storeRun emptyState 0 "X" ScopeAuthentication ⟨4, "e", [], true⟩)
        7 "X" = .ok st'
      ∧ alookup st'.strs (sessionKey ScopeAuthentication "X") = none
      ∧ "X" ∉ smembers st' (buildUserIndexKey 4 ScopeAuthentication) := by
  constructor
  · exact deleteSession_behaviour.1 emptyState 7 "X" rfl
  · exact deleteSession_behaviour.2
      (storeRun emptyState 0 "X" ScopeAuthentication ⟨4, "e", [], true⟩)
      7 "X" ⟨4, "e", [], true⟩ (by rfl)

theorem scopeString_invalid (s : TokenScope) (hv : ¬ validScope s) :
    scopeString s = .error "Incorrect token scope" := by
  match s, hv with
  | Int.ofNat 0, hv => exact absurd (Or.inl rfl) hv
  | Int.ofNat 1, hv => exact absurd (Or.inr (Or.inl rfl)) hv
  | Int.ofNat 2, hv => exact absurd (Or.inr (Or.inr rfl)) hv
  | Int.ofNat (n + 3), _ => rfl
  | Int.negSucc n, _ => rfl

/-- C9 counterexample: `DeleteAllSessionsForUser` given the unmapped scope
value 5 does not fail — it silently builds its index key with an empty
scope segment and returns success. -/
theorem deleteAll_invalid_scope_succeeds :
    deleteAllSessionsForUser emptyState 7 5 = .ok emptyState
    ∧ buildUserIndexKey 7 5 = "user:7::sessions"
    ∧ scopeString 5 = .error "Incorrect token scope" := by
  refine ⟨rfl, ?_, rfl⟩
  rfl

/-- C9 amended: the scope-to-string mapping sends the three declared scopes
to their names and errors on every other value; `StoreSession` and
`GetSession` propagate that error loudly, but `DeleteAllSessionsForUser`
swallows it, building its index key with an empty scope segment and
returning success. -/
theorem scope_mapping_behaviour :
    scopeString ScopeActivation = .ok "activation"
    ∧ scopeString ScopeAuthentication = .ok "authentication"
    ∧ scopeString ScopeRefresh = .ok "refresh"
    ∧ (∀ s : TokenScope, ¬ validScope s →
        scopeString s = .error "Incorrect token scope"
        ∧ (∀ (st : ValkeyState) (now : Nat) (token : String) (sess : Session),
            storeSession st now token s sess = .error .internalError)
        ∧ (∀ (st : ValkeyState) (now : Nat) (token : String),
            getSession st now token s = .error .internalError)
        ∧ (∀ userID : Int, buildUserIndexKey userID s
            = "user:" ++ toString userID ++ ":" ++ "" ++ ":sessions")
        ∧ (∀ (st : ValkeyState) (userID : Int),
            deleteAllSessionsForUser st userID s
              = .ok (deleteAllRun st userID s))) := by
  refine ⟨rfl, rfl, rfl, ?_⟩
  intro s hv
  have hss := scopeString_invalid s hv
  have hb : ∀ token : String, buildKey token s
      = .error "Incorrect token scope" := by
    intro token
    unfold buildKey
    rw [hss]
  refine ⟨hss, ?_, ?_, ?_, ?_⟩
  · intro st now token sess
    unfold storeSession
    rw [hb token]
  · intro st now token
    unfold getSession
    rw [hb token]
  · intro userID
    unfold buildUserIndexKey
    rw [hss]
  · intro st userID
    exact deleteAll_eq st userID s

/-- Concrete instantiation of the C9 amended theorem at the unmapped scope
value 5. -/
theorem scope_mapping_behaviour_witness :
    scopeString 5 = .error "Incorrect token scope"
    ∧ storeSession emptyState 0 "T" 5 ⟨1, "e", [], true⟩
        = .error .internalError
    ∧ getSession emptyState 0 "T" 5 = .error .internalError
    ∧ buildUserIndexKey 7 5 = "user:" ++ toString (7 : Int) ++ ":" ++ ""
        ++ ":sessions"
    ∧ deleteAllSessionsForUser emptyState 7 5
        = .ok (deleteAllRun emptyState 7 5) := by
  have hv : ¬ validScope 5 := by
    rintro (h | h | h) <;> exact absurd h (by decide)
  obtain ⟨h1, h2, h3, h4, h5⟩ := scope_mapping_behaviour.2.2.2 5 hv
  exact ⟨h1, h2 emptyState 0 "T" ⟨1, "e", [], true⟩, h3 emptyState 0 "T",
    h4 7, h5 emptyState 7⟩

/-- C6: a present-but-malformed authorization header is rejected with an
invalid-token error whatever the cookie or the store holds (no fall-through
to the cookie), and a request with no bearer header and no non-empty
session cookie proceeds with the shared anonymous session — success, never
an error. -/
theorem authenticate_malformed_and_anonymous :
    (∀ (st : ValkeyState) (now : Nat) (header : String)
        (cookie : Option String), header ≠ "" →
        ¬ ((splitSpaces header).length = 2
            ∧ (splitSpaces header).getD 0 "" = "Bearer") →
        authenticate st now header cookie = .invalidTokenError)
    ∧ (∀ (st : ValkeyState) (now : Nat),
        authenticate st now "" none = .proceed .anonymous
        ∧ authenticate st now "" (some "") = .proceed .anonymous) := by
  constructor
  · intro st now header cookie hne hmal
    unfold authenticate
    rw [if_pos hne, if_neg hmal]
  · intro st now
    constructor <;> rfl

/-- Concrete instantiation of the C6 theorem: a three-part header and a
non-`Bearer` two-part header are both rejected even with a cookie present,
and the bare anonymous request proceeds. -/
theorem authenticate_malformed_and_anonymous_witness :
    authenticate emptyState 0 "Basic abc" (some "sometoken")
        = .invalidTokenError
    ∧ authenticate emptyState 0 "Bearer a b" (some "sometoken")
        = .invalidTokenError
    ∧ authenticate emptyState 0 "" none = .proceed .anonymous := by
  refine ⟨?_, ?_, (authenticate_malformed_and_anonymous.2 emptyState 0).1⟩
  · exact authenticate_malformed_and_anonymous.1 emptyState 0 "Basic abc"
      (some "sometoken") (by decide) (by decide)
  · exact authenticate_malformed_and_anonymous.1 emptyState 0 "Bearer a b"
      (some "sometoken") (by decide) (by decide)

/-- C10: `IsAnonymous` answers true only for the shared anonymous pointer
and false for every freshly allocated session — including one structurally
equal to the anonymous value; the gate attaches a fresh copy for every
session resolved from the store, so any stored session passes the
require-authenticated guard. -/
theorem isAnonymous_identity_semantics :
    isAnonymous SessionRef.anonymous = true
    ∧ (∀ s : Session, isAnonymous (SessionRef.fresh s) = false)
    ∧ isAnonymous (SessionRef.fresh anonymousSessionValue) = false
    ∧ (∀ s : Session, requireAuthenticatedUser (SessionRef.fresh s)
        = .proceedNext (SessionRef.fresh s))
    ∧ (∀ (st : ValkeyState) (now : Nat) (token : String) (sess : Session),
        validateTokenPlaintext token = true →
        getSession st now token ScopeAuthentication = .ok sess →
        authenticate st now "" (some token)
          = .proceed (.fresh ⟨sess.userID, sess.email, sess.permissions,
              sess.activated⟩)) := by
  refine ⟨rfl, fun s => rfl, rfl, fun s => rfl, ?_⟩
  intro st now token sess hval hget
  have hne : ¬ token = "" := by
    intro h
    subst h
    exact absurd hval (by decide)
  unfold authenticate
  rw [if_neg (by simp)]
  simp only
  rw [if_neg hne]
  unfold authenticateToken
  rw [if_neg (by rw [hval]; exact fun h => Bool.noConfusion h), hget]

/-- Concrete instantiation of the C10 theorem: a stored session whose
fields structurally equal the anonymous value is still attached as a fresh
session and passes the require-authenticated guard. -/
theorem isAnonymous_identity_semantics_witness :
    authenticate
        (storeRun emptyState 0 "ABCDEFGHIJKLMNOPQRSTUVWXYZ"
          ScopeAuthentication anonymousSessionValue)
        1 "" (some "ABCDEFGHIJKLMNOPQRSTUVWXYZ")
      = .proceed (.fresh anonymousSessionValue)
    ∧ requireAuthenticatedUser (.fresh anonymousSessionValue)
      = .proceedNext (.fresh anonymousSessionValue)
    ∧ isAnonymous (SessionRef.fresh anonymousSessionValue) = false := by
  refine ⟨?_, isAnonymous_identity_semantics.2.2.2.1 anonymousSessionValue,
    isAnonymous_identity_semantics.2.2.1⟩
  exact isAnonymous_identity_semantics.2.2.2.2
    (storeRun emptyState 0 "ABCDEFGHIJKLMNOPQRSTUVWXYZ"
      ScopeAuthentication anonymousSessionValue)
    1 "ABCDEFGHIJKLMNOPQRSTUVWXYZ" anonymousSessionValue
    (by decide) (by rfl)

/-- C8: for every request and every IP parser rejecting the empty string
(as `net.ParseIP` does), the code's client-IP resolution agrees with the
spec's precedence rule: X-Forwarded-For's trimmed first entry wins when it
parses, X-Real-IP is next, the port-stripped remote address is the
fallback; malformed values merely fall through. -/
theorem resolveXRI_eq_spec (parseOk : String → Bool)
    (splitHost : String → Option String) (xri remoteAddr : String)
    (hempty : parseOk "" = false) :
    resolveXRI parseOk splitHost xri remoteAddr
      = if parseOk xri then xri else resolveRemote splitHost remoteAddr := by
  unfold resolveXRI
  by_cases hxri : xri = ""
  · subst hxri
    rw [if_neg (by simp), hempty]
    simp
  · rw [if_pos hxri]

theorem getClientIP_matches_spec :
    ∀ (parseOk : String → Bool) (splitHost : String → Option String)
      (xff xri remoteAddr : String), parseOk "" = false →
      getClientIP parseOk splitHost xff xri remoteAddr
        = resolveClientIP_spec parseOk splitHost xff xri remoteAddr := by
  intro parseOk splitHost xff xri remoteAddr hempty
  unfold getClientIP resolveClientIP_spec
  simp only [resolveXRI_eq_spec parseOk splitHost xri remoteAddr hempty]
  by_cases hxff : xff = ""
  · subst hxff
    rw [if_neg (by simp)]
    have hfirst : trimSpace ((splitCommas "").getD 0 "") = "" := rfl
    simp only [hfirst, hempty, Bool.false_eq_true, if_false]
  · rw [if_pos hxff]
    have hlen : (splitCommas xff).length > 0 := by
      unfold splitCommas
      rw [List.length_map]
      cases hd : xff.data with
      | nil => simp [splitOnChar]
      | cons c rest =>
        simp only [splitOnChar]
        cases splitOnChar ',' rest with
        | nil => by_cases hc : c = ',' <;> simp [hc]
        | cons h t => by_cases hc : c = ',' <;> simp [hc]
    rw [if_pos hlen]

/-- Concrete instantiation of the C8 theorem on the spec's four examples:
both headers, X-Real-IP alone, a malformed X-Forwarded-For entry, and
neither header. -/
theorem getClientIP_matches_spec_witness :
    getClientIP isIPv4 (fun _ => some "10.0.0.9")
        "203.0.113.1, 192.168.1.1" "203.0.113.2" "10.0.0.9:8080"
      = "203.0.113.1"
    ∧ getClientIP isIPv4 (fun _ => some "10.0.0.9")
        "" "203.0.113.2" "10.0.0.9:8080" = "203.0.113.2"
    ∧ getClientIP isIPv4 (fun _ => some "10.0.0.9")
        "not-an-ip" "203.0.113.2" "10.0.0.9:8080" = "203.0.113.2"
    ∧ getClientIP isIPv4 (fun _ => some "10.0.0.9")
        "" "" "10.0.0.9:8080" = "10.0.0.9" := by
  refine ⟨?_, ?_, ?_, ?_⟩
  · rw [getClientIP_matches_spec isIPv4 (fun _ => some "10.0.0.9")
      "203.0.113.1, 192.168.1.1" "203.0.113.2" "10.0.0.9:8080" rfl]
    rfl
  · rw [getClientIP_matches_spec isIPv4 (fun _ => some "10.0.0.9")
      "" "203.0.113.2" "10.0.0.9:8080" rfl]
    rfl
  · rw [getClientIP_matches_spec isIPv4 (fun _ => some "10.0.0.9")
      "not-an-ip" "203.0.113.2" "10.0.0.9:8080" rfl]
    rfl
  · rw [getClientIP_matches_spec isIPv4 (fun _ => some "10.0.0.9")
      "" "" "10.0.0.9:8080" rfl]
    rfl

theorem rateLimitStep_rps (irl : IPRateLimiter) (ip : String) (now : ℚ) :
    (rateLimitStep irl ip now).2.rps = irl.rps := by
  unfold rateLimitStep
  cases alookup irl.limiters ip <;> rfl

theorem rateLimitStep_burst (irl : IPRateLimiter) (ip : String) (now : ℚ) :
    (rateLimitStep irl ip now).2.burst = irl.burst := by
  unfold rateLimitStep
  cases alookup irl.limiters ip <;> rfl

theorem rateLimitStep_frame (irl : IPRateLimiter) (ip ip' : String)
    (now : ℚ) (h : ip' ≠ ip) :
    alookup (rateLimitStep irl ip now).2.limiters ip'
      = alookup irl.limiters ip' := by
  unfold rateLimitStep
  cases alookup irl.limiters ip <;>
    simp only [alookup_aset, if_neg h]

theorem runRequests_frame (ip ip' : String) (now : ℚ) (h : ip' ≠ ip) :
    ∀ (n : Nat) (irl : IPRateLimiter),
      alookup (runRequests irl ip now n).2.limiters ip'
        = alookup irl.limiters ip' := by
  intro n
  induction n with
  | zero => intro irl; rfl
  | succ m ih =>
    intro irl
    rw [runRequests]
    exact (ih (rateLimitStep irl ip now).2).trans
      (rateLimitStep_frame irl ip ip' now h)

theorem runRequests_rps (ip : String) (now : ℚ) :
    ∀ (n : Nat) (irl : IPRateLimiter),
      (runRequests irl ip now n).2.rps = irl.rps := by
  intro n
  induction n with
  | zero => intro irl; rfl
  | succ m ih =>
    intro irl
    rw [runRequests]
    exact (ih (rateLimitStep irl ip now).2).trans
      (rateLimitStep_rps irl ip now)

theorem runRequests_burst (ip : String) (now : ℚ) :
    ∀ (n : Nat) (irl : IPRateLimiter),
      (runRequests irl ip now n).2.burst = irl.burst := by
  intro n
  induction n with
  | zero => intro irl; rfl
  | succ m ih =>
    intro irl
    rw [runRequests]
    exact (ih (rateLimitStep irl ip now).2).trans
      (rateLimitStep_burst irl ip now)

/-- Calling `Allow` at the very instant of the last refill neither gains nor loses
tokens beyond the one consumed. -/
theorem limiterAllow_at_now (t now R B : ℚ) (ht : t ≤ B) :
    limiterAllow ⟨t, now, R, B⟩ now
      = if 1 ≤ t then (true, ⟨t - 1, now, R, B⟩)
        else (false, ⟨t, now, R, B⟩) := by
  unfold limiterAllow
  simp only [sub_self, zero_mul, add_zero, min_eq_right ht]

theorem rateLimitStep_found (irl : IPRateLimiter) (ip : String)
    (now t R B ls : ℚ)
    (hl : alookup irl.limiters ip = some (entryAt t now R B ls))
    (hle : t ≤ B) (h1 : 1 ≤ t) :
    rateLimitStep irl ip now
      = (true, withLimiters irl
          (aset irl.limiters ip (entryAt (t - 1) now R B now))) := by
  unfold rateLimitStep
  rw [hl]
  simp only [entryAt, limiterAllow_at_now t now R B hle, if_pos h1]
  rfl

theorem rateLimitStep_exhausted (irl : IPRateLimiter) (ip : String)
    (now t R B ls : ℚ)
    (hl : alookup irl.limiters ip = some (entryAt t now R B ls))
    (hle : t ≤ B) (h1 : ¬ 1 ≤ t) :
    rateLimitStep irl ip now
      = (false, withLimiters irl
          (aset irl.limiters ip (entryAt t now R B now))) := by
  unfold rateLimitStep
  rw [hl]
  simp only [entryAt, limiterAllow_at_now t now R B hle, if_neg h1]
  rfl

/-- A bucket holding `(k : ℚ)` tokens at instant `now` answers exactly `k`
more requests at that instant, then rejects the next one. -/
theorem runRequests_exhaust (ip : String) (now R B : ℚ) :
    ∀ (k : Nat) (irl : IPRateLimiter) (ls : ℚ),
      alookup irl.limiters ip = some (entryAt ((k : Nat) : ℚ) now R B ls) →
      ((k : Nat) : ℚ) ≤ B →
      (runRequests irl ip now (k + 1)).1
        = List.replicate k true ++ [false] := by
  intro k
  induction k with
  | zero =>
    intro irl ls hl hle
    have h0 : ((0 : Nat) : ℚ) = (0 : ℚ) := by norm_num
    rw [h0] at hl hle
    rw [runRequests, runRequests,
      rateLimitStep_exhausted irl ip now 0 R B ls hl hle (by norm_num)]
    simp
  | succ m ih =>
    intro irl ls hl hle
    have h1 : (1 : ℚ) ≤ ((m + 1 : Nat) : ℚ) := by
      exact_mod_cast Nat.succ_le_succ (Nat.zero_le m)
    have hcast : ((m + 1 : Nat) : ℚ) - 1 = ((m : Nat) : ℚ) := by
      push_cast
      ring
    have hstep := rateLimitStep_found irl ip now (((m + 1 : Nat)) : ℚ)
      R B ls hl hle h1
    rw [hcast] at hstep
    have hrec := ih
      (withLimiters irl
        (aset irl.limiters ip (entryAt ((m : Nat) : ℚ) now R B now))) now
      (by simp [withLimiters, alookup_aset])
      (le_trans (by exact_mod_cast Nat.le_succ m) hle)
    rw [runRequests, hstep]
    simp only
    rw [hrec, List.replicate_succ, List.cons_append]

/-- C7: from a fresh bucket, `burst + 1` instantaneous requests from one IP
see the first `burst` allowed and the last rejected; a different IP's map
entry is untouched by the whole run, and its next-request outcome is
unchanged — buckets are fully independent. -/
theorem rate_limiter_burst_and_independence :
    ∀ (burst : Nat) (irl : IPRateLimiter) (ip1 ip2 : String) (now : ℚ),
      irl.burst = ((burst : Nat) : ℚ) →
      alookup irl.limiters ip1 = none →
      ip1 ≠ ip2 →
      (runRequests irl ip1 now (burst + 1)).1
        = List.replicate burst true ++ [false]
      ∧ alookup (runRequests irl ip1 now (burst + 1)).2.limiters ip2
        = alookup irl.limiters ip2
      ∧ (rateLimitStep (runRequests irl ip1 now (burst + 1)).2 ip2 now).1
        = (rateLimitStep irl ip2 now).1 := by
  intro burst irl ip1 ip2 now hburst hnone hne
  have hframe := runRequests_frame ip1 ip2 now (Ne.symm hne) (burst + 1) irl
  refine ⟨?_, hframe, ?_⟩
  · cases burst with
    | zero =>
      have hstep : rateLimitStep irl ip1 now
          = (false, withLimiters irl
              (aset irl.limiters ip1 (entryAt 0 now irl.rps 0 now))) := by
        unfold rateLimitStep
        rw [hnone]
        simp only [hburst, Nat.cast_zero, entryAt,
          limiterAllow_at_now 0 now irl.rps 0 le_rfl]
        rw [if_neg (by norm_num : ¬ (1 : ℚ) ≤ 0)]
        simp [withLimiters, hburst]
      rw [runRequests, runRequests, hstep]
      simp
    | succ m =>
      have h1 : (1 : ℚ) ≤ ((m + 1 : Nat) : ℚ) := by
        exact_mod_cast Nat.succ_le_succ (Nat.zero_le m)
      have hcast : ((m + 1 : Nat) : ℚ) - 1 = ((m : Nat) : ℚ) := by
        push_cast
        ring
      have hstep : rateLimitStep irl ip1 now
          = (true, withLimiters irl
              (aset irl.limiters ip1
                (entryAt ((m : Nat) : ℚ) now irl.rps
                  ((m + 1 : Nat) : ℚ) now))) := by
        unfold rateLimitStep
        rw [hnone]
        simp only [hburst, entryAt,
          limiterAllow_at_now ((m + 1 : Nat) : ℚ) now irl.rps
            ((m + 1 : Nat) : ℚ) le_rfl,
          if_pos h1, hcast]
        simp [withLimiters, hburst]
      have hrec := runRequests_exhaust ip1 now irl.rps ((m + 1 : Nat) : ℚ)
        m (withLimiters irl
            (aset irl.limiters ip1
              (entryAt ((m : Nat) : ℚ) now irl.rps
                ((m + 1 : Nat) : ℚ) now))) now
        (by simp [withLimiters, alookup_aset])
        (by exact_mod_cast Nat.le_succ m)
      rw [runRequests, hstep]
      simp only
      rw [hrec, List.replicate_succ, List.cons_append]
  · unfold rateLimitStep
    rw [hframe, runRequests_rps, runRequests_burst]
    cases alookup irl.limiters ip2 <;> rfl

/-- An unseen IP's first request is allowed whenever the configured burst
is at least one. -/
theorem rateLimitStep_fresh_allows (irl : IPRateLimiter) (ip : String)
    (now : ℚ) (hnone : alookup irl.limiters ip = none)
    (hb : 1 ≤ irl.burst) : (rateLimitStep irl ip now).1 = true := by
  unfold rateLimitStep
  rw [hnone]
  simp only [limiterAllow_at_now irl.burst now irl.rps irl.burst le_rfl,
    if_pos hb]

/-- Concrete instantiation of the C7 theorem: burst 2, three instantaneous
requests from one IP, then a request from a second IP. -/
theorem rate_limiter_burst_and_independence_witness :
    (runRequests (newIPRateLimiter 1 ((2 : Nat) : ℚ)) "1.1.1.1" 0 3).1
      = [true, true, false]
    ∧ (rateLimitStep
        (runRequests (newIPRateLimiter 1 ((2 : Nat) : ℚ)) "1.1.1.1" 0 3).2
        "2.2.2.2" 0).1
      = (rateLimitStep (newIPRateLimiter 1 ((2 : Nat) : ℚ)) "2.2.2.2" 0).1
    ∧ (rateLimitStep (newIPRateLimiter 1 ((2 : Nat) : ℚ)) "2.2.2.2" 0).1
      = true := by
  obtain ⟨h1, _, h3⟩ := rate_limiter_burst_and_independence 2
    (newIPRateLimiter 1 ((2 : Nat) : ℚ)) "1.1.1.1" "2.2.2.2" 0
    rfl rfl (by decide)
  refine ⟨h1.trans rfl, h3, ?_⟩
  exact rateLimitStep_fresh_allows (newIPRateLimiter 1 ((2 : Nat) : ℚ))
    "2.2.2.2" 0 rfl (Nat.one_le_cast.mpr (by decide))

end Blog
